import Mathlib

/-!
A verification development for `regex_parser.py`: a heuristic field extractor
over a fixed 36-field schema (`extract_fields_unlabeled`) together with a
date normalizer (`format_date`).

Modelling conventions.

* Python strings are modelled by Lean `String` / `List Char`.  The regular
  expressions of the source, all applied with `re.IGNORECASE` (and for the
  interview date also `re.DOTALL`), use only ASCII character classes; case
  folding is modelled by ASCII lowercasing (`lowerAscii`), `\s` by ASCII
  whitespace and `\d` by ASCII digits, which agrees with CPython on all
  ASCII text.
* Python's backtracking regex engine is modelled by parsers of type
  `List Char → List Nat`: the list of lengths a (sub)pattern can consume at
  the start of the input, in exactly the order Python's engine tries them
  (greedy repetition = longest first, alternation = left first).  The first
  full-pattern success is therefore the match Python reports.  Each concrete
  regex of the source is hand-compiled into these combinators; the
  compilation is commented pattern piece by pattern piece.
* A Python dict with string keys and insertion order is modelled by an
  association list `List (String × String)`; `data[k] = v` is `setField`
  (replace if present, append if absent — exactly a dict assignment).
* Numbers reaching `format_date` are modelled by `ℚ`.  `timedelta(days=x)`
  followed by `datetime.__add__` advances the date by `⌊x⌋` days; the
  sub-microsecond rounding that `timedelta` performs on an IEEE double is
  idealized away by the exact rational model.  `datetime` arithmetic that
  leaves the supported range (years 1..9999) raises `OverflowError`, which
  the source's `except` turns into `"Invalid Date"`; the model returns the
  sentinel directly on the same range check.  `strftime("%Y-%m-%d")` on
  glibc prints the year unpadded (4 digits for years 1000..9999) and the
  month and day zero-padded to two digits.
-/

/-! ### Character classes (ASCII models of `re`'s classes) -/

/-- ASCII lowercasing: the effect of `re.IGNORECASE` on the ASCII letters
used by every pattern in the source. -/
def lowerAscii (c : Char) : Char :=
  if 'A' ≤ c ∧ c ≤ 'Z' then Char.ofNat (c.toNat + 32) else c

/-- `\s` (ASCII part): space, tab, newline, carriage return, vertical tab,
form feed — Python's whitespace class on ASCII text. -/
def isSpaceChar (c : Char) : Bool :=
  c == ' ' || c == '\t' || c == '\n' || c == '\r' || c == '\x0b' || c == '\x0c'

/-- `[A-Za-z]`, and also `[A-Z]` / `[a-zA-Z]` under `re.IGNORECASE`. -/
def isAsciiLetter (c : Char) : Bool :=
  ('A' ≤ c && c ≤ 'Z') || ('a' ≤ c && c ≤ 'z')

/-- `\d` (ASCII part). -/
def isDigitChar (c : Char) : Bool :=
  '0' ≤ c && c ≤ '9'

/-- Python's `str.strip()` on ASCII text: drop leading and trailing
whitespace. -/
def pyStrip (s : String) : String :=
  String.mk (((s.toList.dropWhile isSpaceChar).reverse.dropWhile isSpaceChar).reverse)

/-! ### Backtracking pattern combinators

A pattern is a function from the input suffix to the list of lengths it can
consume, in the order Python's engine tries them. -/

/-- A (sub)pattern: the lengths it can match at the start of the input, in
backtracking priority order. -/
abbrev Pat := List Char → List Nat

/-- The empty pattern (matches nothing, consuming 0). -/
def pNil : Pat := fun _ => [0]

/-- A single character of a class, e.g. the slash-or-dash class or `\d`. -/
def pClass (f : Char → Bool) : Pat := fun cs =>
  match cs with
  | [] => []
  | c :: _ => if f c then [1] else []

/-- Case-insensitive prefix test (ASCII folding, as `re.IGNORECASE`). -/
def ciPrefix : List Char → List Char → Bool
  | [], _ => true
  | _ :: _, [] => false
  | p :: ps, c :: cs => lowerAscii p == lowerAscii c && ciPrefix ps cs

/-- A literal, matched case-insensitively. -/
def pStrCI (pat : String) : Pat := fun cs =>
  if ciPrefix pat.toList cs then [pat.length] else []

/-- Sequencing: all ways to match `p` then `q`, outer loop on `p`
(depth-first, exactly the engine's order). -/
def pSeq (p q : Pat) : Pat := fun cs =>
  (p cs).flatMap (fun a => (q (cs.drop a)).map (fun b => a + b))

/-- Alternation `p|q`: left alternative first. -/
def pAlt (p q : Pat) : Pat := fun cs => p cs ++ q cs

/-- Greedy option `p?`: present first, then absent. -/
def pOpt (p : Pat) : Pat := fun cs => p cs ++ [0]

/-- Length of the maximal prefix run of a character class. -/
def maxRun (f : Char → Bool) : List Char → Nat
  | [] => 0
  | c :: cs => if f c then maxRun f cs + 1 else 0

/-- Greedy `+` over a single-character class, e.g. `\s+` or `[A-Za-z]+`:
the run lengths r, r-1, …, 1 (longest first). -/
def pPlusClass (f : Char → Bool) : Pat := fun cs =>
  let r := maxRun f cs
  (List.range r).map (fun i => r - i)

/-- Greedy `*` over a compound pattern that always consumes at least one
character, bounded by fuel (the input length suffices). More iterations are
tried first, matching the engine's greedy order. -/
def pStarFuel (p : Pat) : Nat → Pat
  | 0 => fun _ => [0]
  | fuel + 1 => fun cs =>
      (((p cs).filter (fun n => decide (0 < n))).flatMap
        (fun a => (pStarFuel p fuel (cs.drop a)).map (fun b => a + b))) ++ [0]

/-- Greedy `+` over a compound pattern consuming at least one character. -/
def pPlusPos (p : Pat) : Pat := fun cs =>
  ((p cs).filter (fun n => decide (0 < n))).flatMap
    (fun a => (pStarFuel p (cs.drop a).length (cs.drop a)).map (fun b => a + b))

/-- First successful way to match `pre` then `cap` at the start of the
input: `(lengths of pre, cap)` in priority order, head = the engine's
choice. -/
def firstPair (pre cap : Pat) (cs : List Char) : Option (Nat × Nat) :=
  match (pre cs).flatMap (fun a => ((cap (cs.drop a)).map (fun b => (a, b)))) with
  | [] => none
  | ab :: _ => some ab

/-- As `firstPair` with a post-context pattern after the capture (the
capture group is `cap`; `post` must also match for the attempt to
succeed). -/
def firstPairPost (pre cap post : Pat) (cs : List Char) : Option (Nat × Nat) :=
  match (pre cs).flatMap (fun a =>
          (cap (cs.drop a)).flatMap (fun b =>
            (post (cs.drop (a + b))).map (fun _ => (a, b)))) with
  | [] => none
  | ab :: _ => some ab

/-- Leftmost-match search: try the matcher at every position, left to
right (including the end-of-string position), as `re.search` does. -/
def firstSomeOpt {α : Type} (f : List Char → Option α) : List Char → Option α
  | [] => f []
  | c :: t =>
    match f (c :: t) with
    | some r => some r
    | none => firstSomeOpt f t

/-- Leftmost-match search also returning the suffix at the match start
(used to model `re.findall`'s scan). -/
def firstSomeSuffix {α : Type} (f : List Char → Option α) :
    List Char → Option (List Char × α)
  | [] => (f []).map (fun r => (([] : List Char), r))
  | c :: t =>
    match f (c :: t) with
    | some r => some (c :: t, r)
    | none => firstSomeSuffix f t

/-! ### The source's patterns, hand-compiled

Each matcher returns, when the full pattern matches at the start of the
given suffix, the pair (total consumed length, capture-group slice of the
original text). -/

/-- The slice of `cs` from offset `a`, of length `b` (a capture group's
text, in the original case). -/
def sliceStr (cs : List Char) (a b : Nat) : String :=
  String.mk ((cs.drop a).take b)

/-- `\d{1,2}`: two digits first, then one. -/
def pDigit12 : Pat := pAlt (pSeq (pClass isDigitChar) (pClass isDigitChar)) (pClass isDigitChar)

/-- `\d{4}`. -/
def pDigit4 : Pat :=
  pSeq (pClass isDigitChar) (pSeq (pClass isDigitChar) (pSeq (pClass isDigitChar) (pClass isDigitChar)))

/-- `\d{3}`. -/
def pDigit3 : Pat :=
  pSeq (pClass isDigitChar) (pSeq (pClass isDigitChar) (pClass isDigitChar))

/-- `\d{2}`. -/
def pDigit2 : Pat := pSeq (pClass isDigitChar) (pClass isDigitChar)

/-- `\d{2,4}`: greedy, longest first. -/
def pDigit24 : Pat := pAlt pDigit4 (pAlt pDigit3 pDigit2)

/-- `(?:st|nd|rd|th)?`: the engine tries the alternatives in written order,
then the empty option. -/
def pOrdSuffixOpt : Pat :=
  pOpt (pAlt (pStrCI "st") (pAlt (pStrCI "nd") (pAlt (pStrCI "rd") (pStrCI "th"))))

/-- The capture of the interview-date rule:
`\d{1,2}(?:st|nd|rd|th)?\s+of\s+[A-Za-z]+\s+\d{4}`. -/
def pInterviewDate : Pat :=
  pSeq pDigit12 (pSeq pOrdSuffixOpt (pSeq (pPlusClass isSpaceChar)
    (pSeq (pStrCI "of") (pSeq (pPlusClass isSpaceChar)
      (pSeq (pPlusClass isAsciiLetter) (pSeq (pPlusClass isSpaceChar) pDigit4))))))

/-- Match of `pInterviewDate` at the start of a suffix, as a capture. -/
def matchInterviewDateAt (cs : List Char) : Option String :=
  match pInterviewDate cs with
  | [] => none
  | n :: _ => some (sliceStr cs 0 n)

/-- `re.search(r'interview.*?(\d{1,2}(?:st|nd|rd|th)?\s+of\s+[A-Za-z]+\s+\d{4})',
text, re.IGNORECASE | re.DOTALL)`: at a match position the literal
`interview` matches and the lazy `.*?` (which crosses newlines under
DOTALL) reaches the *earliest* following start of the date subpattern. -/
def matchDOIAt (cs : List Char) : Option String :=
  if ciPrefix "interview".toList cs then
    firstSomeOpt matchInterviewDateAt (cs.drop 9)
  else none

/-- The interview-date search over the whole text (source lines 116–120). -/
def searchDateOfInterview (cs : List Char) : Option String :=
  firstSomeOpt matchDOIAt cs

/-- `[A-Z][a-zA-Z]+` under IGNORECASE: a letter then one or more letters
(two or more letters in all). -/
def pNameWord : Pat := pSeq (pClass isAsciiLetter) (pPlusClass isAsciiLetter)

/-- The Name capture: `[A-Z][a-zA-Z]+(?:\s+[A-Z][a-zA-Z]+)+`. -/
def pNameCapture : Pat := pSeq pNameWord (pPlusPos (pSeq (pPlusClass isSpaceChar) pNameWord))

/-- `re.search(r'interview with\s+([A-Z][a-zA-Z]+(?:\s+[A-Z][a-zA-Z]+)+)',
text, re.IGNORECASE)` at one position. -/
def matchNameAt (cs : List Char) : Option String :=
  (firstPair (pSeq (pStrCI "interview with") (pPlusClass isSpaceChar)) pNameCapture cs).map
    (fun ab => sliceStr cs ab.1 ab.2)

/-- The Name search (source lines 123–127). -/
def searchName (cs : List Char) : Option String :=
  firstSomeOpt matchNameAt cs

/-- The slash-or-dash class of the date-of-birth pattern. -/
def pSlashDash : Pat := pClass (fun c => c == '/' || c == '-')

/-- `re.search` of the date-of-birth pattern at one position:
`born (?:on\s+)?` then the capture `\d{1,2}`, slash-or-dash, `\d{1,2}`,
slash-or-dash, `\d{2,4}` (source pattern, `re.IGNORECASE`). -/
def matchDOBAt (cs : List Char) : Option String :=
  (firstPair (pSeq (pStrCI "born ") (pOpt (pSeq (pStrCI "on") (pPlusClass isSpaceChar))))
      (pSeq pDigit12 (pSeq pSlashDash (pSeq pDigit12 (pSeq pSlashDash pDigit24)))) cs).map
    (fun ab => sliceStr cs ab.1 ab.2)

/-- The Date-of-Birth search (source lines 130–132). -/
def searchDateOfBirth (cs : List Char) : Option String :=
  firstSomeOpt matchDOBAt cs

/-- `re.search(r"born in\s+([A-Za-z\s]+)[\.,]", text, re.IGNORECASE)` at one
position: the capture class is letters and whitespace, the post-context a
period or comma. -/
def matchPOBAt (cs : List Char) : Option String :=
  (firstPairPost (pSeq (pStrCI "born in") (pPlusClass isSpaceChar))
      (pPlusClass (fun c => isAsciiLetter c || isSpaceChar c))
      (pClass (fun c => c == '.' || c == ',')) cs).map
    (fun ab => sliceStr cs ab.1 ab.2)

/-- The Place-of-Birth search (source lines 135–137). -/
def searchPlaceOfBirth (cs : List Char) : Option String :=
  firstSomeOpt matchPOBAt cs

/-- One sibling mention, `my\s+(?:younger\s+)?(brother|sister)\s+([A-Z][a-zA-Z]+)`:
returns (total consumed length, the name capture — group 2). -/
def matchSiblingAt (cs : List Char) : Option (Nat × String) :=
  (firstPair
      (pSeq (pStrCI "my") (pSeq (pPlusClass isSpaceChar)
        (pSeq (pOpt (pSeq (pStrCI "younger") (pPlusClass isSpaceChar)))
          (pSeq (pAlt (pStrCI "brother") (pStrCI "sister")) (pPlusClass isSpaceChar)))))
      pNameWord cs).map
    (fun ab => (ab.1 + ab.2, sliceStr cs ab.1 ab.2))

/-- `re.findall`'s scan: repeatedly take the leftmost match and continue
after its end (matches never have zero width here; the fuel, one more than
the text length, is enough for every step to consume at least one
character). -/
def findallAux (f : List Char → Option (Nat × String)) : Nat → List Char → List String
  | 0, _ => []
  | fuel + 1, cs =>
    match firstSomeSuffix f cs with
    | none => []
    | some (suff, n, cap) => cap :: findallAux f fuel (suff.drop (max n 1))

/-- The sibling-name occurrences, in text order (source line 140): the
second capture group of each non-overlapping match. -/
def siblingsFindall (cs : List Char) : List String :=
  findallAux matchSiblingAt (cs.length + 1) cs

/-- `re.search(r"(Salvation Army(?: training college)?)", text, re.IGNORECASE)`
at one position. -/
def matchChurchAt (cs : List Char) : Option String :=
  match pSeq (pStrCI "Salvation Army") (pOpt (pStrCI " training college")) cs with
  | [] => none
  | n :: _ => some (sliceStr cs 0 n)

/-- The Church-Affiliation search (source lines 146–148). -/
def searchChurch (cs : List Char) : Option String :=
  firstSomeOpt matchChurchAt cs

/-- `re.search(r"(John Deere)", text, re.IGNORECASE)` at one position. -/
def matchEmployerAt (cs : List Char) : Option String :=
  match pStrCI "John Deere" cs with
  | [] => none
  | n :: _ => some (sliceStr cs 0 n)

/-- The Employer search (source lines 151–153). -/
def searchEmployer (cs : List Char) : Option String :=
  firstSomeOpt matchEmployerAt cs

/-- `re.search(r"(Salvation Army training college in Chicago)", text,
re.IGNORECASE)` at one position. -/
def matchSchoolsAt (cs : List Char) : Option String :=
  match pStrCI "Salvation Army training college in Chicago" cs with
  | [] => none
  | n :: _ => some (sliceStr cs 0 n)

/-- The Schools-Attended search (source lines 156–158). -/
def searchSchools (cs : List Char) : Option String :=
  firstSomeOpt matchSchoolsAt cs

/-- The fixed gazetteer, in the order the source's loop visits it
(source line 162). -/
def gazetteer : List String :=
  ["California", "Moline", "Campbells Island", "Chicago", "Florida", "Sweden"]

/-- `re.search(loc, text, re.IGNORECASE)` for a literal without regex
metacharacters: a case-insensitive substring test, by leftmost search. -/
def searchLit (pat : String) (cs : List Char) : Bool :=
  (firstSomeOpt (fun s => match pStrCI pat s with
    | [] => none
    | _ :: _ => some ()) cs).isSome

/-- `locations_found` (source lines 161–164): the gazetteer entries found
in the text, in gazetteer order. -/
def geoFound (cs : List Char) : List String :=
  gazetteer.filter (fun loc => searchLit loc cs)

/-- Python's `<` on strings: lexicographic by code point. -/
def lexLt : List Char → List Char → Bool
  | [], [] => false
  | [], _ :: _ => true
  | _ :: _, [] => false
  | a :: as, b :: bs =>
    if a.toNat < b.toNat then true
    else if b.toNat < a.toNat then false
    else lexLt as bs

/-- Insertion of a string into a sorted list (ascending code-point
lexicographic order, as Python's `sorted`). -/
def insertSorted (s : String) : List String → List String
  | [] => [s]
  | t :: ts => if lexLt s.toList t.toList then s :: t :: ts else t :: insertSorted s ts

/-- Python's `sorted` on a list of strings (insertion sort; code-point
lexicographic order coincides with Python's). -/
def sortStrings : List String → List String
  | [] => []
  | s :: ss => insertSorted s (sortStrings ss)

/-! ### Proleptic Gregorian calendar

`datetime` represents a date by its ordinal (1 = 0001-01-01); adding a
`timedelta` adds day counts to ordinals and raises `OverflowError` when the
result leaves the supported ordinals 1..3652059 (1..9999-12-31).
`toOrdinal` is the standard closed-form day count (the specification side);
`fromOrd` recovers the calendar date from an ordinal by scanning years and
months (the model of `datetime`'s conversion), and is proved to invert
`toOrdinal` below. -/

/-- Gregorian leap year. -/
def isLeap (y : Nat) : Bool :=
  decide (y % 4 = 0 ∧ (¬ y % 100 = 0 ∨ y % 400 = 0))

/-- Days in a month. -/
def daysInMonth (y m : Nat) : Nat :=
  if m = 2 then (if isLeap y then 29 else 28)
  else if m = 4 ∨ m = 6 ∨ m = 9 ∨ m = 11 then 30 else 31

/-- Days in a year. -/
def yearLength (y : Nat) : Nat := if isLeap y then 366 else 365

/-- Days strictly before January 1 of year `y`, counting from 0001-01-01
(the closed rata-die formula). -/
def daysBeforeYear (y : Nat) : Nat :=
  365 * (y - 1) + (y - 1) / 4 + (y - 1) / 400 - (y - 1) / 100

/-- Days of year `y` strictly before month `m`. -/
def monthPrefix (y m : Nat) : Nat :=
  ((List.range (m - 1)).map (fun i => daysInMonth y (i + 1))).sum

/-- The ordinal of the date `y-m-d` (1 = 0001-01-01): the specification of
proleptic Gregorian day counting. -/
def toOrdinal (y m d : Nat) : Nat :=
  daysBeforeYear y + monthPrefix y m + d

/-- A valid calendar date within `datetime`'s year range. -/
def isValidYMD : Nat × Nat × Nat → Bool
  | (y, m, d) =>
    decide (1 ≤ y ∧ y ≤ 9999 ∧ 1 ≤ m ∧ m ≤ 12 ∧ 1 ≤ d ∧ d ≤ daysInMonth y m)

/-- Year scan: starting at year `y` with `r` days remaining (0-based),
advance while `r` covers a whole year. -/
def findYear : Nat → Nat → Nat → Nat × Nat
  | 0, y, r => (y, r)
  | fuel + 1, y, r =>
    if r < yearLength y then (y, r) else findYear fuel (y + 1) (r - yearLength y)

/-- Month scan within year `y`. -/
def findMonth (y : Nat) : Nat → Nat → Nat → Nat × Nat
  | 0, m, r => (m, r)
  | fuel + 1, m, r =>
    if r < daysInMonth y m then (m, r) else findMonth y fuel (m + 1) (r - daysInMonth y m)

/-- The calendar date of ordinal `n` (the model of `datetime`'s
ordinal-to-date conversion). -/
def fromOrd (n : Nat) : Nat × Nat × Nat :=
  let yr := findYear 10000 1 (n - 1)
  let md := findMonth yr.1 12 1 yr.2
  (yr.1, md.1, md.2 + 1)

/-- The decimal digit character of `k ≤ 9`. -/
def digitChar (k : Nat) : Char := Char.ofNat (48 + k)

/-- `%Y` of glibc `strftime`: the year in decimal, unpadded (so exactly
four digits for years 1000..9999, written out digit by digit for the
four-digit range). -/
def yearStr (y : Nat) : String :=
  if 1000 ≤ y ∧ y ≤ 9999 then
    String.mk [digitChar (y / 1000), digitChar (y / 100 % 10),
               digitChar (y / 10 % 10), digitChar (y % 10)]
  else toString y

/-- `%m` / `%d`: two digits, zero padded. -/
def pad2 (n : Nat) : String := String.mk [digitChar (n / 10), digitChar (n % 10)]

/-- `strftime("%Y-%m-%d")`. -/
def formatYMD (y m d : Nat) : String := yearStr y ++ "-" ++ pad2 m ++ "-" ++ pad2 d

/-- `formatYMD` on a date triple. -/
def formatYMDt : Nat × Nat × Nat → String
  | (y, m, d) => formatYMD y m d

/-- The ordinal of the serial-date epoch `datetime(1899, 12, 30)`. -/
def epochOrd : Int := (toOrdinal 1899 12 30 : Nat)

/-! ### The date normalizer -/

/-- The values reaching `format_date`: a number (int or float, modelled
exactly by a rational) or a string. -/
inductive PyVal where
  | num (v : ℚ)
  | str (s : String)

/-- The decimal value of a digit character. -/
def digitVal (c : Char) : Nat := c.toNat - 48

/-- Modelled from the spec: the ISO fast path of the external
`pandas.to_datetime` (whose code is not part of this repository) — a
string `YYYY-MM-DD` of a valid calendar date parses to that date; an
invalid calendar combination fails (pandas coerces it to `NaT`). -/
def parseIso (s : String) : Option (Nat × Nat × Nat) :=
  match s.toList with
  | [a, b, c, d, '-', e, f, '-', g, h] =>
    if isDigitChar a && isDigitChar b && isDigitChar c && isDigitChar d &&
       isDigitChar e && isDigitChar f && isDigitChar g && isDigitChar h then
      let y := digitVal a * 1000 + digitVal b * 100 + digitVal c * 10 + digitVal d
      let m := digitVal e * 10 + digitVal f
      let d' := digitVal g * 10 + digitVal h
      if 1 ≤ y ∧ 1 ≤ m ∧ m ≤ 12 ∧ 1 ≤ d' ∧ d' ≤ daysInMonth y m then
        some (y, m, d')
      else none
    else none
  | _ => none

/-- The month names the free-text parser recognizes. -/
def monthNames : List (String × Nat) :=
  [("january", 1), ("february", 2), ("march", 3), ("april", 4), ("may", 5),
   ("june", 6), ("july", 7), ("august", 8), ("september", 9), ("october", 10),
   ("november", 11), ("december", 12)]

/-- A day token: one or two digits, optionally followed by an ordinal
suffix (`st`, `nd`, `rd`, `th`). -/
def dayFromTok (t : List Char) : Option Nat :=
  match t with
  | [a] => if isDigitChar a then some (digitVal a) else none
  | [a, b] =>
    if isDigitChar a && isDigitChar b then some (digitVal a * 10 + digitVal b) else none
  | [a, s1, s2] =>
    if isDigitChar a && isOrdSuffix s1 s2 then some (digitVal a) else none
  | [a, b, s1, s2] =>
    if isDigitChar a && isDigitChar b && isOrdSuffix s1 s2 then
      some (digitVal a * 10 + digitVal b)
    else none
  | _ => none
where
  isOrdSuffix (s1 s2 : Char) : Bool :=
    (s1 == 's' && s2 == 't') || (s1 == 'n' && s2 == 'd') ||
    (s1 == 'r' && s2 == 'd') || (s1 == 't' && s2 == 'h')

/-- A four-digit year token. -/
def yearFromTok (t : List Char) : Option Nat :=
  match t with
  | [a, b, c, d] =>
    if isDigitChar a && isDigitChar b && isDigitChar c && isDigitChar d then
      some (digitVal a * 1000 + digitVal b * 100 + digitVal c * 10 + digitVal d)
    else none
  | _ => none

/-- Modelled from the spec: the free-text path of the external
`pandas.to_datetime` for the written form the source's comments and the
spec name — an ordinal day, `of`, a month name, a year (`"11th of March
1986"`); `of` and ordinal suffixes are skipped by the parser and month
names match case-insensitively. -/
def parseDayOfMonthYear (s : String) : Option (Nat × Nat × Nat) :=
  match (s.toList.map lowerAscii).splitOn ' ' |>.filter (fun t => !t.isEmpty) with
  | [dTok, ofTok, mTok, yTok] =>
    if ofTok = ['o', 'f'] then
      match dayFromTok dTok, monthNames.lookup (String.mk mTok), yearFromTok yTok with
      | some d, some m, some y =>
        if 1 ≤ y ∧ 1 ≤ d ∧ d ≤ daysInMonth y m then some (y, m, d) else none
      | _, _, _ => none
    else none
  | _ => none

/-- Modelled from the spec: `pandas.to_datetime(value, errors='coerce')`
on the strings this program feeds it — the ISO form and the written
`day of Month year` form parse; anything else is `NaT` (`none`).  (The
external library accepts further formats and bounds timestamps to the
nanosecond era; neither reaches the claims settled here — see the results
notes.) -/
def pd_to_datetime (s : String) : Option (Nat × Nat × Nat) :=
  (parseIso s).orElse (fun _ => parseDayOfMonthYear s)

/-- `format_date` (source lines 52–76).  A numeric value in [1800, 2100]
is a bare year (`int(value)` truncates; the value is positive, so this is
the floor); any other numeric value is a day count from the epoch
1899-12-30, where `datetime` arithmetic that leaves years 1..9999 raises
and the `except` yields `"Invalid Date"`.  A string is parsed by
`pandas.to_datetime`; `NaT` yields `"Invalid Date"`. -/
def format_date : PyVal → String
  | .num v =>
    if 1800 ≤ v ∧ v ≤ 2100 then
      toString v.floor ++ "-01-01"
    else
      let o : Int := epochOrd + v.floor
      if 1 ≤ o ∧ o ≤ 3652059 then formatYMDt (fromOrd o.toNat) else "Invalid Date"
  | .str s =>
    match pd_to_datetime s with
    | none => "Invalid Date"
    | some ymd => formatYMDt ymd

/-! ### Records and the extractor -/

/-- The 36 schema fields, in order (source lines 10–47). -/
def required_fields : List String :=
  ["Name",
   "Date of Birth",
   "Place of Birth",
   "Date of Interview",
   "Location of Interview",
   "Parent's Names",
   "Parent's Birthplace",
   "Parent's Occupation",
   "Siblings",
   "Spouse's Name",
   "Children's Names",
   "Grandchildren's Names",
   "Date of Immigration",
   "Country of Origin",
   "Reason for Immigration",
   "Mode of Travel",
   "Ports of Entry",
   "Destinations",
   "Occupation",
   "Employer",
   "Job Title",
   "Education Level",
   "Schools Attended",
   "Year of Graduation",
   "Health Issues",
   "Medical Treatments",
   "Cause of Death",
   "Church Affiliation",
   "Community Involvement",
   "Social Activities",
   "Language Spoken",
   "Cultural Practices",
   "Historical Events Experienced",
   "Geographical Locations",
   "Notes",
   "Sources"]

/-- The four date-designated fields (source line 50). -/
def date_fields : List String :=
  ["Date of Birth", "Date of Interview", "Date of Immigration", "Year of Graduation"]

/-- A Python dict assignment `data[k] = v` on an insertion-ordered dict
modelled as an association list: replace the value if the key is present,
append otherwise. -/
def setField (r : List (String × String)) (k v : String) : List (String × String) :=
  if r.any (fun p => p.1 == k) then
    r.map (fun p => if p.1 == k then (k, v) else p)
  else r ++ [(k, v)]

/-- `data[k]` as a lookup. -/
def lookupField (r : List (String × String)) (k : String) : Option String :=
  (r.find? (fun p => p.1 == k)).map (fun p => p.2)

/-- An `if match: data[k] = …` step of the extractor. -/
def condSet (r : List (String × String)) (k : String) : Option String → List (String × String)
  | some v => setField r k v
  | none => r

/-- One step of the date-normalization loop (source lines 177–179): when
the field is none of the sentinels `"N/A"`, `""`, `"Invalid Date"`, it is
overwritten with `format_date` of its value. -/
def dateLoopStep (r : List (String × String)) (k : String) : List (String × String) :=
  match lookupField r k with
  | some v =>
    if v ≠ "N/A" ∧ v ≠ "" ∧ v ≠ "Invalid Date" then
      setField r k (format_date (.str v))
    else r
  | none => r

/-- The Siblings value (source lines 140–143): when any mention matches,
the distinct captured names joined with `", "`.  The source builds a
Python `set` and joins it in the set's unspecified iteration order; the
model joins in first-occurrence order (one of the admissible orders). -/
def siblingsValue (cs : List Char) : Option String :=
  if siblingsFindall cs = [] then none
  else some (String.intercalate ", " (siblingsFindall cs).dedup)

/-- The Geographical-Locations value (source lines 161–166):
`", ".join(sorted(set(locations_found)))` when any entry was found. -/
def geoValue (cs : List Char) : Option String :=
  if geoFound cs = [] then none
  else some (String.intercalate ", " (sortStrings (geoFound cs).dedup))

/-- `extract_fields_unlabeled` (source lines 94–181): initialize every
field to `"N/A"`; apply the heuristic rules in source order; set
`"Sources"` to the filename; normalize the four date fields. -/
def extract_fields_unlabeled (text filename : String) : List (String × String) :=
  let cs := text.toList
  let d0 := required_fields.map (fun f => (f, "N/A"))
  let d1 := condSet d0 "Date of Interview" ((searchDateOfInterview cs).map pyStrip)
  let d2 := condSet d1 "Name" ((searchName cs).map pyStrip)
  let d3 := condSet d2 "Date of Birth" ((searchDateOfBirth cs).map pyStrip)
  let d4 := condSet d3 "Place of Birth" ((searchPlaceOfBirth cs).map pyStrip)
  let d5 := condSet d4 "Siblings" (siblingsValue cs)
  let d6 := condSet d5 "Church Affiliation" ((searchChurch cs).map pyStrip)
  let d7 := condSet d6 "Employer" ((searchEmployer cs).map pyStrip)
  let d8 := condSet d7 "Schools Attended" ((searchSchools cs).map pyStrip)
  let d9 := condSet d8 "Geographical Locations" (geoValue cs)
  let dA := setField d9 "Sources" filename
  let dB := dateLoopStep dA "Date of Birth"
  let dC := dateLoopStep dB "Date of Interview"
  let dD := dateLoopStep dC "Date of Immigration"
  dateLoopStep dD "Year of Graduation"

/-! ### Specification-side definitions used to state the claims -/

/-- `pat` occurs case-insensitively in `text` as a contiguous substring:
for some position `i`, the slice of `text` of the pattern's length starting
at `i` equals the pattern after ASCII lowercasing of both. -/
def occursCI (pat text : String) : Bool :=
  (List.range (text.toList.length + 1)).any (fun i =>
    ((text.toList.drop i).take pat.toList.length).map lowerAscii ==
      pat.toList.map lowerAscii)

/-- The gazetteer in sorted (code-point lexicographic) order. -/
def gazetteerSorted : List String :=
  ["California", "Campbells Island", "Chicago", "Florida", "Moline", "Sweden"]

/-- The sorted, deduplicated list of gazetteer entries that occur
case-insensitively in the text (the claim's description of the
Geographical-Locations value). -/
def geoSpecList (text : String) : List String :=
  gazetteerSorted.filter (fun loc => occursCI loc text)

/-- No heuristic rule of the extractor finds anything in the text: every
search misses, no sibling mention matches, no gazetteer entry occurs. -/
def noRecognizablePattern (text : String) : Prop :=
  searchDateOfInterview text.toList = none ∧
  searchName text.toList = none ∧
  searchDateOfBirth text.toList = none ∧
  searchPlaceOfBirth text.toList = none ∧
  siblingsFindall text.toList = [] ∧
  searchChurch text.toList = none ∧
  searchEmployer text.toList = none ∧
  searchSchools text.toList = none ∧
  geoFound text.toList = []

/-- The 26 schema fields for which the source has no extraction rule:
everything except Name, Date of Birth, Place of Birth, Date of Interview,
Siblings, Church Affiliation, Employer, Schools Attended, Geographical
Locations and Sources. -/
def unruled_fields : List String :=
  ["Location of Interview",
   "Parent's Names",
   "Parent's Birthplace",
   "Parent's Occupation",
   "Spouse's Name",
   "Children's Names",
   "Grandchildren's Names",
   "Date of Immigration",
   "Country of Origin",
   "Reason for Immigration",
   "Mode of Travel",
   "Ports of Entry",
   "Destinations",
   "Occupation",
   "Job Title",
   "Education Level",
   "Year of Graduation",
   "Health Issues",
   "Medical Treatments",
   "Cause of Death",
   "Community Involvement",
   "Social Activities",
   "Language Spoken",
   "Cultural Practices",
   "Historical Events Experienced",
   "Notes"]

/-! ## Theorems

### Association-list record lemmas -/

theorem keys_setField (r : List (String × String)) (k v : String)
    (h : k ∈ r.map Prod.fst) : (setField r k v).map Prod.fst = r.map Prod.fst := by
  unfold setField
  rw [if_pos]
  · rw [List.map_map]
    apply List.map_congr_left
    intro p _
    by_cases hp : p.1 = k
    · simp [Function.comp, hp]
    · simp [Function.comp, hp]
  · rw [List.any_eq_true]
    rcases List.mem_map.mp h with ⟨p, hp, hpk⟩
    exact ⟨p, hp, by simp [hpk]⟩

theorem keys_condSet (r : List (String × String)) (k : String) (o : Option String)
    (h : k ∈ r.map Prod.fst) : (condSet r k o).map Prod.fst = r.map Prod.fst := by
  cases o with
  | none => rfl
  | some v => exact keys_setField r k v h

theorem keys_dateLoopStep (r : List (String × String)) (k : String)
    (h : k ∈ r.map Prod.fst) : (dateLoopStep r k).map Prod.fst = r.map Prod.fst := by
  unfold dateLoopStep
  cases lookupField r k with
  | none => rfl
  | some v =>
    simp only
    split
    · exact keys_setField r k _ h
    · rfl

theorem find?_mapUpd_ne (r : List (String × String)) (k v f : String) (h : ¬ f = k) :
    (r.map (fun p => if p.1 == k then (k, v) else p)).find? (fun p => p.1 == f) =
      r.find? (fun p => p.1 == f) := by
  have hkf : (k == f) = false := by
    simp only [beq_eq_false_iff_ne, ne_eq]
    exact fun hh => h hh.symm
  induction r with
  | nil => rfl
  | cons p t ih =>
    by_cases hp : p.1 = k
    · have h1 : (p.1 == f) = false := by
        simp only [beq_eq_false_iff_ne, ne_eq, hp]
        exact fun hh => h hh.symm
      simp only [List.map_cons, List.find?_cons, hp, beq_self_eq_true, if_true, hkf, h1, ih]
    · have hp' : (p.1 == k) = false := by simp [hp]
      simp only [List.map_cons, List.find?_cons, hp', Bool.false_eq_true, if_false, ih]

theorem lookupField_setField_ne (r : List (String × String)) (k v f : String)
    (h : ¬ f = k) : lookupField (setField r k v) f = lookupField r f := by
  unfold setField lookupField
  split
  · rw [find?_mapUpd_ne r k v f h]
  · rw [List.find?_append]
    have hkf : (k == f) = false := by
      simp only [beq_eq_false_iff_ne, ne_eq]
      exact fun hh => h hh.symm
    simp [List.find?, hkf]

theorem find?_mapUpd_self (r : List (String × String)) (k v : String)
    (h : k ∈ r.map Prod.fst) :
    (r.map (fun p => if p.1 == k then (k, v) else p)).find? (fun p => p.1 == k) =
      some (k, v) := by
  induction r with
  | nil => simp at h
  | cons p t ih =>
    by_cases hp : p.1 = k
    · simp only [List.map_cons, List.find?_cons, hp, beq_self_eq_true, if_true]
    · have hp' : (p.1 == k) = false := by simp [hp]
      have ht : k ∈ t.map Prod.fst := by
        rcases List.mem_map.mp h with ⟨q, hq, hqk⟩
        rcases List.mem_cons.mp hq with hq1 | hq2
        · exact absurd (hq1 ▸ hqk) hp
        · exact List.mem_map.mpr ⟨q, hq2, hqk⟩
      simp only [List.map_cons, List.find?_cons, hp', Bool.false_eq_true, if_false, ih ht]

theorem lookupField_setField_self (r : List (String × String)) (k v : String)
    (h : k ∈ r.map Prod.fst) : lookupField (setField r k v) k = some v := by
  unfold setField lookupField
  rw [if_pos]
  · rw [find?_mapUpd_self r k v h]
    rfl
  · rw [List.any_eq_true]
    rcases List.mem_map.mp h with ⟨p, hp, hpk⟩
    exact ⟨p, hp, by simp [hpk]⟩

theorem lookupField_condSet_ne (r : List (String × String)) (k : String)
    (o : Option String) (f : String) (h : ¬ f = k) :
    lookupField (condSet r k o) f = lookupField r f := by
  cases o with
  | none => rfl
  | some v => exact lookupField_setField_ne r k v f h

theorem lookupField_condSet_some (r : List (String × String)) (k v : String)
    (h : k ∈ r.map Prod.fst) : lookupField (condSet r k (some v)) k = some v :=
  lookupField_setField_self r k v h

theorem lookupField_dateLoopStep_ne (r : List (String × String)) (k f : String)
    (h : ¬ f = k) : lookupField (dateLoopStep r k) f = lookupField r f := by
  unfold dateLoopStep
  cases lookupField r k with
  | none => rfl
  | some v =>
    simp only
    split
    · exact lookupField_setField_ne r k _ f h
    · rfl

theorem lookupField_dateLoopStep_na (r : List (String × String)) (k f : String)
    (h : lookupField r f = some "N/A") :
    lookupField (dateLoopStep r k) f = some "N/A" := by
  by_cases hfk : f = k
  · subst hfk
    unfold dateLoopStep
    rw [h]
    simpa using h
  · rw [lookupField_dateLoopStep_ne r k f hfk]
    exact h

theorem keys_init (l : List String) (v : String) :
    (l.map (fun x => (x, v))).map Prod.fst = l := by
  rw [List.map_map]
  have hcomp : (Prod.fst ∘ fun x : String => (x, v)) = id := rfl
  rw [hcomp, List.map_id]

theorem lookupField_init (l : List String) (v f : String) (h : f ∈ l) :
    lookupField (l.map (fun x => (x, v))) f = some v := by
  induction l with
  | nil => simp at h
  | cons x t ih =>
    by_cases hx : x = f
    · simp [lookupField, List.find?, hx]
    · have hx' : (x == f) = false := by simp [hx]
      have ht : f ∈ t := by
        rcases List.mem_cons.mp h with h1 | h2
        · exact absurd h1.symm hx
        · exact h2
      simpa [lookupField, List.find?, hx'] using ih ht

/-! ### Keys of the extractor's record -/

theorem keys_condSet_req (r : List (String × String)) (k : String) (o : Option String)
    (hk : k ∈ required_fields) (h : r.map Prod.fst = required_fields) :
    (condSet r k o).map Prod.fst = required_fields := by
  rw [keys_condSet r k o (by rw [h]; exact hk)]
  exact h

theorem keys_setField_req (r : List (String × String)) (k v : String)
    (hk : k ∈ required_fields) (h : r.map Prod.fst = required_fields) :
    (setField r k v).map Prod.fst = required_fields := by
  rw [keys_setField r k v (by rw [h]; exact hk)]
  exact h

theorem keys_dateLoopStep_req (r : List (String × String)) (k : String)
    (hk : k ∈ required_fields) (h : r.map Prod.fst = required_fields) :
    (dateLoopStep r k).map Prod.fst = required_fields := by
  rw [keys_dateLoopStep r k (by rw [h]; exact hk)]
  exact h

/-- Claim C1: for every text and every filename, the Record returned by
`extract_fields_unlabeled` has as its key sequence exactly the 36 schema
field names, in the schema's order — no field added, omitted or absent. -/
theorem extract_keys_eq_schema (text fn : String) :
    (extract_fields_unlabeled text fn).map Prod.fst = required_fields := by
  simp only [extract_fields_unlabeled]
  refine keys_dateLoopStep_req _ _ (by decide) ?_
  refine keys_dateLoopStep_req _ _ (by decide) ?_
  refine keys_dateLoopStep_req _ _ (by decide) ?_
  refine keys_dateLoopStep_req _ _ (by decide) ?_
  refine keys_setField_req _ _ _ (by decide) ?_
  refine keys_condSet_req _ _ _ (by decide) ?_
  refine keys_condSet_req _ _ _ (by decide) ?_
  refine keys_condSet_req _ _ _ (by decide) ?_
  refine keys_condSet_req _ _ _ (by decide) ?_
  refine keys_condSet_req _ _ _ (by decide) ?_
  refine keys_condSet_req _ _ _ (by decide) ?_
  refine keys_condSet_req _ _ _ (by decide) ?_
  refine keys_condSet_req _ _ _ (by decide) ?_
  refine keys_condSet_req _ _ _ (by decide) ?_
  exact keys_init required_fields "N/A"

/-! ### Untouched fields -/

theorem condSet_none (r : List (String × String)) (k : String) :
    condSet r k none = r := rfl

/-- Claim C9: the 26 schema fields without an extraction rule (every field
other than Name, Date of Birth, Place of Birth, Date of Interview,
Siblings, Church Affiliation, Employer, Schools Attended, Geographical
Locations and Sources) are exactly `"N/A"` in every returned Record. -/
theorem extract_unruled_fields_na (text fn f : String) (hf : f ∈ unruled_fields) :
    lookupField (extract_fields_unlabeled text fn) f = some "N/A" := by
  have H : ∀ x ∈ unruled_fields, x ∈ required_fields ∧
      ¬ x = "Date of Interview" ∧ ¬ x = "Name" ∧ ¬ x = "Date of Birth" ∧
      ¬ x = "Place of Birth" ∧ ¬ x = "Siblings" ∧ ¬ x = "Church Affiliation" ∧
      ¬ x = "Employer" ∧ ¬ x = "Schools Attended" ∧
      ¬ x = "Geographical Locations" ∧ ¬ x = "Sources" := by decide
  obtain ⟨hreq, hDOI, hNm, hDOB, hPOB, hSib, hCh, hEmp, hSch, hGeo, hSrc⟩ := H f hf
  simp only [extract_fields_unlabeled]
  apply lookupField_dateLoopStep_na
  apply lookupField_dateLoopStep_na
  apply lookupField_dateLoopStep_na
  apply lookupField_dateLoopStep_na
  rw [lookupField_setField_ne _ _ _ f hSrc]
  rw [lookupField_condSet_ne _ _ _ f hGeo]
  rw [lookupField_condSet_ne _ _ _ f hSch]
  rw [lookupField_condSet_ne _ _ _ f hEmp]
  rw [lookupField_condSet_ne _ _ _ f hCh]
  rw [lookupField_condSet_ne _ _ _ f hSib]
  rw [lookupField_condSet_ne _ _ _ f hPOB]
  rw [lookupField_condSet_ne _ _ _ f hDOB]
  rw [lookupField_condSet_ne _ _ _ f hNm]
  rw [lookupField_condSet_ne _ _ _ f hDOI]
  exact lookupField_init required_fields "N/A" f hreq

/-- Witness for C9 at a concrete field, text and filename. -/
theorem extract_unruled_fields_na_witness :
    lookupField (extract_fields_unlabeled "some text" "f.txt") "Spouse's Name" =
      some "N/A" :=
  extract_unruled_fields_na "some text" "f.txt" "Spouse's Name" (by decide)

/-! ### The all-sentinel record on pattern-free text -/

/-- Claim C2: on a text in which no extraction rule finds anything (the
empty text included), the extractor returns — without any failure — a
Record in which every field is `"N/A"` except `"Sources"`, which is the
given filename verbatim. -/
theorem extract_no_pattern_all_sentinel (text fn : String)
    (h : noRecognizablePattern text) :
    (∀ f ∈ required_fields, f ≠ "Sources" →
        lookupField (extract_fields_unlabeled text fn) f = some "N/A") ∧
    lookupField (extract_fields_unlabeled text fn) "Sources" = some fn := by
  obtain ⟨h1, h2, h3, h4, h5, h6, h7, h8, h9⟩ := h
  have hrec : extract_fields_unlabeled text fn =
      dateLoopStep (dateLoopStep (dateLoopStep (dateLoopStep
        (setField (required_fields.map (fun f => (f, "N/A"))) "Sources" fn)
        "Date of Birth") "Date of Interview") "Date of Immigration")
        "Year of Graduation" := by
    simp only [extract_fields_unlabeled, h1, h2, h3, h4, h6, h7, h8,
      siblingsValue, geoValue, h5, h9, Option.map_none', condSet_none, if_true]
  constructor
  · intro f hreq hsrc
    rw [hrec]
    apply lookupField_dateLoopStep_na
    apply lookupField_dateLoopStep_na
    apply lookupField_dateLoopStep_na
    apply lookupField_dateLoopStep_na
    rw [lookupField_setField_ne _ _ _ f hsrc]
    exact lookupField_init required_fields "N/A" f hreq
  · rw [hrec]
    rw [lookupField_dateLoopStep_ne _ _ _ (by decide)]
    rw [lookupField_dateLoopStep_ne _ _ _ (by decide)]
    rw [lookupField_dateLoopStep_ne _ _ _ (by decide)]
    rw [lookupField_dateLoopStep_ne _ _ _ (by decide)]
    apply lookupField_setField_self
    rw [keys_init]
    decide

/-- Witness for C2 at the empty text: every rule misses, every non-Sources
field is the sentinel and Sources is the filename. -/
theorem extract_no_pattern_all_sentinel_witness :
    lookupField (extract_fields_unlabeled "" "empty.txt") "Name" = some "N/A" ∧
    lookupField (extract_fields_unlabeled "" "empty.txt") "Sources" = some "empty.txt" :=
  ⟨(extract_no_pattern_all_sentinel "" "empty.txt"
      ⟨rfl, rfl, rfl, rfl, rfl, rfl, rfl, rfl, rfl⟩).1 "Name" (by decide) (by decide),
   (extract_no_pattern_all_sentinel "" "empty.txt"
      ⟨rfl, rfl, rfl, rfl, rfl, rfl, rfl, rfl, rfl⟩).2⟩

/-! ### Calendar correctness: `fromOrd` inverts `toOrdinal` -/

theorem isLeap_iff (y : Nat) :
    isLeap y = true ↔ (y % 4 = 0 ∧ (¬ y % 100 = 0 ∨ y % 400 = 0)) := by
  unfold isLeap
  exact decide_eq_true_iff

set_option maxHeartbeats 1000000 in
theorem daysBeforeYear_succ (y : Nat) (hy : 1 ≤ y) :
    daysBeforeYear (y + 1) = daysBeforeYear y + yearLength y := by
  unfold daysBeforeYear yearLength isLeap
  by_cases h4 : y % 4 = 0 <;> by_cases h100 : y % 100 = 0 <;>
    by_cases h400 : y % 400 = 0 <;>
    simp only [h4, h100, h400, decide_True, decide_False, not_true, not_false_iff,
      true_and, false_and, true_or, false_or, or_true, or_false, and_true, and_false,
      Bool.false_eq_true, if_true, if_false, decide_eq_true_eq] <;>
    omega

theorem daysBeforeYear_le (a b : Nat) (ha : 1 ≤ a) (h : a ≤ b) :
    daysBeforeYear a ≤ daysBeforeYear b := by
  induction b with
  | zero => omega
  | succ n ih =>
    by_cases hab : a = n + 1
    · rw [hab]
    · have han : a ≤ n := by omega
      have h1n : 1 ≤ n := by omega
      calc daysBeforeYear a ≤ daysBeforeYear n := ih han
        _ ≤ daysBeforeYear (n + 1) := by rw [daysBeforeYear_succ n h1n]; omega

theorem findYear_spec (fuel : Nat) : ∀ (y r : Nat), 1 ≤ y →
    daysBeforeYear y + r < daysBeforeYear (y + fuel) →
    1 ≤ (findYear fuel y r).1 ∧
    (findYear fuel y r).2 < yearLength (findYear fuel y r).1 ∧
    daysBeforeYear (findYear fuel y r).1 + (findYear fuel y r).2 =
      daysBeforeYear y + r ∧
    (findYear fuel y r).1 < y + fuel := by
  induction fuel with
  | zero =>
    intro y r _ h
    rw [Nat.add_zero] at h
    exact absurd h (by omega)
  | succ f ih =>
    intro y r hy h
    unfold findYear
    split_ifs with hr
    · exact ⟨hy, hr, rfl, by omega⟩
    · have hlen : yearLength y ≤ r := by omega
      have hstep := daysBeforeYear_succ y hy
      have harg : daysBeforeYear (y + 1) + (r - yearLength y) <
          daysBeforeYear (y + 1 + f) := by
        have he : y + 1 + f = y + (f + 1) := by omega
        rw [he]
        omega
      have hrec := ih (y + 1) (r - yearLength y) (by omega) harg
      refine ⟨hrec.1, hrec.2.1, ?_, by omega⟩
      rw [hrec.2.2.1]
      omega

theorem monthPrefix_succ (y m : Nat) (hm : 1 ≤ m) :
    monthPrefix y (m + 1) = monthPrefix y m + daysInMonth y m := by
  unfold monthPrefix
  have h1 : m + 1 - 1 = (m - 1) + 1 := by omega
  rw [h1, List.range_succ, List.map_append, List.sum_append]
  have h2 : m - 1 + 1 = m := by omega
  simp [h2]

theorem monthPrefix_13 (y : Nat) : monthPrefix y 13 = yearLength y := by
  have hr : List.range 12 = [0, 1, 2, 3, 4, 5, 6, 7, 8, 9, 10, 11] := rfl
  unfold monthPrefix yearLength
  rw [show (13 : Nat) - 1 = 12 from rfl, hr]
  by_cases h : isLeap y = true <;> simp [daysInMonth, h]

theorem findMonth_spec (y : Nat) (fuel : Nat) : ∀ (m r : Nat), 1 ≤ m →
    monthPrefix y m + r < monthPrefix y (m + fuel) →
    1 ≤ (findMonth y fuel m r).1 ∧
    (findMonth y fuel m r).2 < daysInMonth y (findMonth y fuel m r).1 ∧
    monthPrefix y (findMonth y fuel m r).1 + (findMonth y fuel m r).2 =
      monthPrefix y m + r ∧
    (findMonth y fuel m r).1 < m + fuel := by
  induction fuel with
  | zero =>
    intro m r _ h
    rw [Nat.add_zero] at h
    exact absurd h (by omega)
  | succ f ih =>
    intro m r hm h
    unfold findMonth
    split_ifs with hr
    · exact ⟨hm, hr, rfl, by omega⟩
    · have hlen : daysInMonth y m ≤ r := by omega
      have hstep := monthPrefix_succ y m hm
      have harg : monthPrefix y (m + 1) + (r - daysInMonth y m) <
          monthPrefix y (m + 1 + f) := by
        have he : m + 1 + f = m + (f + 1) := by omega
        rw [he]
        omega
      have hrec := ih (m + 1) (r - daysInMonth y m) (by omega) harg
      refine ⟨by omega, hrec.2.1, ?_, by omega⟩
      rw [hrec.2.2.1]
      omega

theorem fromOrd_spec (n : Nat) (h1 : 1 ≤ n) (h2 : n ≤ 3652059) :
    isValidYMD (fromOrd n) = true ∧
    toOrdinal (fromOrd n).1 (fromOrd n).2.1 (fromOrd n).2.2 = n := by
  have hbY1 : daysBeforeYear 1 = 0 := rfl
  have hbound : daysBeforeYear 1 + (n - 1) < daysBeforeYear (1 + 10000) := by
    have he : daysBeforeYear (1 + 10000) = 3652425 := by decide
    omega
  have hY := findYear_spec 10000 1 (n - 1) (le_refl 1) hbound
  have hy9999 : (findYear 10000 1 (n - 1)).1 ≤ 9999 := by
    by_contra hgt
    have h10000 : 10000 ≤ (findYear 10000 1 (n - 1)).1 := by omega
    have hmono := daysBeforeYear_le 10000 _ (by omega) h10000
    have hd : daysBeforeYear 10000 = 3652059 := by decide
    omega
  have hMbound : monthPrefix (findYear 10000 1 (n - 1)).1 1 +
      (findYear 10000 1 (n - 1)).2 <
      monthPrefix (findYear 10000 1 (n - 1)).1 (1 + 12) := by
    have he : (1 : Nat) + 12 = 13 := rfl
    rw [he]
    have hmp1 : monthPrefix (findYear 10000 1 (n - 1)).1 1 = 0 := rfl
    have hmp13 := monthPrefix_13 (findYear 10000 1 (n - 1)).1
    omega
  have hM := findMonth_spec (findYear 10000 1 (n - 1)).1 12 1
      (findYear 10000 1 (n - 1)).2 (le_refl 1) hMbound
  have hmp1 : monthPrefix (findYear 10000 1 (n - 1)).1 1 = 0 := rfl
  constructor
  · show isValidYMD ((findYear 10000 1 (n - 1)).1,
      (findMonth (findYear 10000 1 (n - 1)).1 12 1 (findYear 10000 1 (n - 1)).2).1,
      (findMonth (findYear 10000 1 (n - 1)).1 12 1 (findYear 10000 1 (n - 1)).2).2 + 1) = true
    unfold isValidYMD
    simp only [decide_eq_true_eq]
    exact ⟨hY.1, hy9999, hM.1, by omega, by omega, by omega⟩
  · show toOrdinal (findYear 10000 1 (n - 1)).1
      (findMonth (findYear 10000 1 (n - 1)).1 12 1 (findYear 10000 1 (n - 1)).2).1
      ((findMonth (findYear 10000 1 (n - 1)).1 12 1 (findYear 10000 1 (n - 1)).2).2 + 1) = n
    unfold toOrdinal
    have e1 := hY.2.2.1
    have e2 := hM.2.2.1
    omega

/-! ### The numeric branch of the date normalizer -/

theorem digitChar_isDigit (k : Nat) (h : k ≤ 9) : isDigitChar (digitChar k) = true := by
  interval_cases k <;> decide

theorem formatYMD_has_digit (y m d : Nat) :
    (formatYMD y m d).toList.any isDigitChar = true := by
  have h1 : (formatYMD y m d).toList =
      (yearStr y).toList ++ ['-'] ++ (pad2 m).toList ++ ['-'] ++ (pad2 d).toList := by
    simp [formatYMD, String.data_append]
  rw [h1]
  have h2 : (pad2 d).toList = [digitChar (d / 10), digitChar (d % 10)] := rfl
  have h3 : isDigitChar (digitChar (d % 10)) = true :=
    digitChar_isDigit (d % 10) (by omega)
  simp only [List.any_append, Bool.or_eq_true, List.any_eq_true]
  have hex : ∃ x ∈ (pad2 d).toList, isDigitChar x = true :=
    ⟨digitChar (d % 10), by rw [h2]; simp, h3⟩
  tauto

/-- Claim C3, counterexample: at the numeric input 4000000 (outside the
year window, so under the claim's serial-day-count case) the source does
not return a formatted calendar date: the `datetime` addition overflows,
the `except` catches it, and the result is `"Invalid Date"` — a string
without a single digit, hence not a `YYYY-MM-DD`-formatted date (every
formatted date contains digits, `formatYMD_has_digit`). -/
theorem format_date_serial_overflow_cex :
    format_date (.num 4000000) = "Invalid Date" ∧
    ("Invalid Date").toList.any isDigitChar = false := by decide

/-- Claim C3, amended: a numeric value in [1800, 2100] yields the floored
year as `"{year}-01-01"` (so `normalizeDate 1925 = "1925-01-01"`); a
numeric value outside that window is a day count from the epoch
1899-12-30, and when the resulting ordinal lies in `datetime`'s supported
range (years 1..9999) the result is that calendar date — the unique valid
date whose day ordinal equals the epoch's ordinal plus the floored value —
formatted `%Y-%m-%d`; when the ordinal leaves the supported range the
result is `"Invalid Date"` instead. -/
theorem format_date_numeric_amended (v : ℚ) :
    (1800 ≤ v ∧ v ≤ 2100 →
      format_date (.num v) = toString v.floor ++ "-01-01") ∧
    (¬ (1800 ≤ v ∧ v ≤ 2100) → 1 ≤ epochOrd + v.floor →
      epochOrd + v.floor ≤ 3652059 →
      isValidYMD (fromOrd (epochOrd + v.floor).toNat) = true ∧
      (toOrdinal (fromOrd (epochOrd + v.floor).toNat).1
        (fromOrd (epochOrd + v.floor).toNat).2.1
        (fromOrd (epochOrd + v.floor).toNat).2.2 : Int) = epochOrd + v.floor ∧
      format_date (.num v) = formatYMDt (fromOrd (epochOrd + v.floor).toNat)) ∧
    (¬ (1800 ≤ v ∧ v ≤ 2100) →
      (epochOrd + v.floor < 1 ∨ 3652059 < epochOrd + v.floor) →
      format_date (.num v) = "Invalid Date") := by
  refine ⟨fun h => ?_, fun h h1 h2 => ?_, fun h hout => ?_⟩
  · simp only [format_date]
    rw [if_pos h]
  · have hn1 : 1 ≤ (epochOrd + v.floor).toNat := by omega
    have hn2 : (epochOrd + v.floor).toNat ≤ 3652059 := by omega
    have hs := fromOrd_spec ((epochOrd + v.floor).toNat) hn1 hn2
    refine ⟨hs.1, ?_, ?_⟩
    · rw [hs.2]
      omega
    · simp only [format_date]
      rw [if_neg h, if_pos ⟨h1, h2⟩]
  · simp only [format_date]
    rw [if_neg h, if_neg (by omega)]

set_option maxRecDepth 40000 in
/-- Witness for the amended C3: the year case at 1925, the in-range serial
case at 43831 (= 2020-01-01) and the overflowing serial case at
4000000. -/
theorem format_date_numeric_amended_witness :
    format_date (.num 1925) = toString (1925 : ℚ).floor ++ "-01-01" ∧
    format_date (.num 43831) =
      formatYMDt (fromOrd ((epochOrd + (43831 : ℚ).floor).toNat)) ∧
    format_date (.num 4000000) = "Invalid Date" :=
  ⟨(format_date_numeric_amended 1925).1 (by decide),
   ((format_date_numeric_amended 43831).2.1 (by decide) (by decide) (by decide)).2.2,
   (format_date_numeric_amended 4000000).2.2 (by decide) (by decide)⟩

set_option maxRecDepth 40000 in
/-- Claim C10: a non-integer numeric value inside [1800, 2100] is floored
and yields `"{floor}-01-01"`, while 2100.5 — just above the window — falls
to the serial-day-count case and yields the date 2100 whole days past
1899-12-30, namely 1905-09-30. -/
theorem format_date_fractional :
    (∀ v : ℚ, 1800 ≤ v → v ≤ 2100 → v.den ≠ 1 →
      format_date (.num v) = toString v.floor ++ "-01-01") ∧
    format_date (.num (mkRat 4201 2)) = "1905-09-30" := by
  constructor
  · intro v h1 h2 _
    simp only [format_date]
    rw [if_pos ⟨h1, h2⟩]
  · decide

set_option maxRecDepth 40000 in
/-- Witness for C10 at 1925.9: the fractional part is truncated. -/
theorem format_date_fractional_witness :
    format_date (.num (mkRat 19259 10)) = toString (mkRat 19259 10).floor ++ "-01-01" :=
  format_date_fractional.1 (mkRat 19259 10) (by decide) (by decide) (by decide)

/-! ### The string branch of the date normalizer -/

/-- Claim C4: the normalizer is total on strings — whenever parsing fails
(the model's `pd_to_datetime` returns `none`, as pandas returns `NaT`
under `errors='coerce'`), the result is exactly `"Invalid Date"`; in
particular `normalizeDate "not a date" = "Invalid Date"`.  The embedding
is a total function, so no exception escapes. -/
theorem format_date_string_total_invalid :
    (∀ s : String, pd_to_datetime s = none → format_date (.str s) = "Invalid Date") ∧
    format_date (.str "not a date") = "Invalid Date" := by
  constructor
  · intro s h
    simp only [format_date, h]
  · decide

/-- Witness for C4 at the concrete failing string. -/
theorem format_date_string_total_invalid_witness :
    format_date (.str "not a date") = "Invalid Date" :=
  format_date_string_total_invalid.1 "not a date" (by decide)

theorem digitVal_digitChar (k : Nat) (h : k ≤ 9) : digitVal (digitChar k) = k := by
  interval_cases k <;> rfl

theorem formatYMD_toList (y m d : Nat) (h1 : 1000 ≤ y) (h2 : y ≤ 9999) :
    (formatYMD y m d).toList =
      [digitChar (y / 1000), digitChar (y / 100 % 10), digitChar (y / 10 % 10),
       digitChar (y % 10), '-', digitChar (m / 10), digitChar (m % 10), '-',
       digitChar (d / 10), digitChar (d % 10)] := by
  have hy : yearStr y = String.mk [digitChar (y / 1000), digitChar (y / 100 % 10),
      digitChar (y / 10 % 10), digitChar (y % 10)] := by
    unfold yearStr
    rw [if_pos ⟨h1, h2⟩]
  simp [formatYMD, hy, pad2, String.data_append]

theorem daysInMonth_le_31 (y m : Nat) : daysInMonth y m ≤ 31 := by
  unfold daysInMonth
  split_ifs <;> omega

theorem parseIso_formatYMD (y m d : Nat)
    (h1 : 1000 ≤ y) (h2 : y ≤ 9999) (h3 : 1 ≤ m) (h4 : m ≤ 12)
    (h5 : 1 ≤ d) (h6 : d ≤ daysInMonth y m) :
    parseIso (formatYMD y m d) = some (y, m, d) := by
  have h31 : daysInMonth y m ≤ 31 := daysInMonth_le_31 y m
  have hd1 : isDigitChar (digitChar (y / 1000)) = true := digitChar_isDigit _ (by omega)
  have hd2 : isDigitChar (digitChar (y / 100 % 10)) = true := digitChar_isDigit _ (by omega)
  have hd3 : isDigitChar (digitChar (y / 10 % 10)) = true := digitChar_isDigit _ (by omega)
  have hd4 : isDigitChar (digitChar (y % 10)) = true := digitChar_isDigit _ (by omega)
  have hd5 : isDigitChar (digitChar (m / 10)) = true := digitChar_isDigit _ (by omega)
  have hd6 : isDigitChar (digitChar (m % 10)) = true := digitChar_isDigit _ (by omega)
  have hd7 : isDigitChar (digitChar (d / 10)) = true := digitChar_isDigit _ (by omega)
  have hd8 : isDigitChar (digitChar (d % 10)) = true := digitChar_isDigit _ (by omega)
  have hv1 : digitVal (digitChar (y / 1000)) = y / 1000 := digitVal_digitChar _ (by omega)
  have hv2 : digitVal (digitChar (y / 100 % 10)) = y / 100 % 10 := digitVal_digitChar _ (by omega)
  have hv3 : digitVal (digitChar (y / 10 % 10)) = y / 10 % 10 := digitVal_digitChar _ (by omega)
  have hv4 : digitVal (digitChar (y % 10)) = y % 10 := digitVal_digitChar _ (by omega)
  have hv5 : digitVal (digitChar (m / 10)) = m / 10 := digitVal_digitChar _ (by omega)
  have hv6 : digitVal (digitChar (m % 10)) = m % 10 := digitVal_digitChar _ (by omega)
  have hv7 : digitVal (digitChar (d / 10)) = d / 10 := digitVal_digitChar _ (by omega)
  have hv8 : digitVal (digitChar (d % 10)) = d % 10 := digitVal_digitChar _ (by omega)
  have hy : digitVal (digitChar (y / 1000)) * 1000 + digitVal (digitChar (y / 100 % 10)) * 100 +
      digitVal (digitChar (y / 10 % 10)) * 10 + digitVal (digitChar (y % 10)) = y := by
    rw [hv1, hv2, hv3, hv4]; omega
  have hm : digitVal (digitChar (m / 10)) * 10 + digitVal (digitChar (m % 10)) = m := by
    rw [hv5, hv6]; omega
  have hdd : digitVal (digitChar (d / 10)) * 10 + digitVal (digitChar (d % 10)) = d := by
    rw [hv7, hv8]; omega
  unfold parseIso
  rw [formatYMD_toList y m d h1 h2]
  simp only [hd1, hd2, hd3, hd4, hd5, hd6, hd7, hd8, Bool.and_self, if_true, hy, hm, hdd]
  rw [if_pos ⟨by omega, h3, h4, h5, h6⟩]

/-- Claim C5, counterexample: the ISO string `"0500-02-10"` (a valid
calendar date, year zero-padded to four digits as ISO-8601 writes it) does
not round-trip: the year is re-formatted unpadded, so the result is
`"500-02-10"`. (Under the real external library the result is
`"Invalid Date"` instead — year 500 lies outside pandas' nanosecond
timestamp bounds — which also differs from the input.) -/
theorem format_date_iso_padded_year_cex :
    format_date (.str "0500-02-10") ≠ "0500-02-10" := by decide

/-- Claim C5, amended: every ISO `YYYY-MM-DD` string of a valid calendar
date whose year has no leading zero (1000..9999) is returned unchanged,
and the normalizer is therefore idempotent on these outputs. -/
theorem format_date_iso_roundtrip (y m d : Nat)
    (h1 : 1000 ≤ y) (h2 : y ≤ 9999) (h3 : 1 ≤ m) (h4 : m ≤ 12)
    (h5 : 1 ≤ d) (h6 : d ≤ daysInMonth y m) :
    format_date (.str (formatYMD y m d)) = formatYMD y m d ∧
    format_date (.str (format_date (.str (formatYMD y m d)))) =
      format_date (.str (formatYMD y m d)) := by
  have hiso := parseIso_formatYMD y m d h1 h2 h3 h4 h5 h6
  have hfmt : format_date (.str (formatYMD y m d)) = formatYMD y m d := by
    simp only [format_date, pd_to_datetime, hiso, Option.orElse]
    rfl
  exact ⟨hfmt, by rw [hfmt, hfmt]⟩

/-- Witness for the amended C5 at `"1986-03-11"`. -/
theorem format_date_iso_roundtrip_witness :
    format_date (.str (formatYMD 1986 3 11)) = formatYMD 1986 3 11 :=
  (format_date_iso_roundtrip 1986 3 11 (by decide) (by decide) (by decide)
    (by decide) (by decide) (by decide)).1

/-! ### Concrete extraction example -/

set_option maxRecDepth 40000 in
/-- Claim C6: on the interview text naming Jane Mary Smith, born in
Stockholm, Sweden, interviewed on the 11th of March 1986, the extractor
returns Name = "Jane Mary Smith", Place of Birth = "Stockholm" and
Date of Interview = "1986-03-11" (after date normalization). -/
theorem extract_example_record :
    lookupField (extract_fields_unlabeled
      "This is an interview with Jane Mary Smith. She was born in Stockholm, Sweden. The interview conducted 11th of March 1986."
      "tape1.txt") "Name" = some "Jane Mary Smith" ∧
    lookupField (extract_fields_unlabeled
      "This is an interview with Jane Mary Smith. She was born in Stockholm, Sweden. The interview conducted 11th of March 1986."
      "tape1.txt") "Place of Birth" = some "Stockholm" ∧
    lookupField (extract_fields_unlabeled
      "This is an interview with Jane Mary Smith. She was born in Stockholm, Sweden. The interview conducted 11th of March 1986."
      "tape1.txt") "Date of Interview" = some "1986-03-11" := by
  decide

/-! ### Siblings: collect-all with set semantics -/

/-- Claim C8: whenever the sibling pattern matches, the Siblings field is
the `", "`-join of the captured names deduplicated by string equality, in
an order the caller may not rely on (stated up to permutation); a text
with `"my brother John"` and `"my sister Mary"` yields the two-element set
{John, Mary}. -/
theorem extract_siblings_set_semantics :
    (∀ text fn : String, siblingsFindall text.toList ≠ [] →
      ∃ L : List String,
        lookupField (extract_fields_unlabeled text fn) "Siblings" =
          some (String.intercalate ", " L) ∧
        L.Perm (siblingsFindall text.toList).dedup) ∧
    (∃ L : List String,
      lookupField (extract_fields_unlabeled
        "I remember my brother John and my sister Mary well." "f.txt") "Siblings" =
        some (String.intercalate ", " L) ∧
      L.Perm ["John", "Mary"]) := by
  constructor
  · intro text fn h
    refine ⟨(siblingsFindall text.toList).dedup, ?_, List.Perm.refl _⟩
    have hval : siblingsValue text.toList =
        some (String.intercalate ", " (siblingsFindall text.toList).dedup) := by
      unfold siblingsValue
      rw [if_neg h]
    simp only [extract_fields_unlabeled]
    rw [lookupField_dateLoopStep_ne _ _ _ (by decide)]
    rw [lookupField_dateLoopStep_ne _ _ _ (by decide)]
    rw [lookupField_dateLoopStep_ne _ _ _ (by decide)]
    rw [lookupField_dateLoopStep_ne _ _ _ (by decide)]
    rw [lookupField_setField_ne _ _ _ _ (by decide)]
    rw [lookupField_condSet_ne _ _ _ _ (by decide)]
    rw [lookupField_condSet_ne _ _ _ _ (by decide)]
    rw [lookupField_condSet_ne _ _ _ _ (by decide)]
    rw [lookupField_condSet_ne _ _ _ _ (by decide)]
    rw [hval]
    apply lookupField_condSet_some
    rw [keys_condSet_req _ _ _ (by decide) (keys_condSet_req _ _ _ (by decide)
      (keys_condSet_req _ _ _ (by decide) (keys_condSet_req _ _ _ (by decide)
        (keys_init required_fields "N/A"))))]
    decide
  · exact ⟨["John", "Mary"], by decide, List.Perm.refl _⟩

/-- Witness for C8 at the two-sibling text. -/
theorem extract_siblings_set_semantics_witness :
    ∃ L : List String,
      lookupField (extract_fields_unlabeled
        "I remember my brother John and my sister Mary well." "w.txt") "Siblings" =
        some (String.intercalate ", " L) ∧
      L.Perm (siblingsFindall
        "I remember my brother John and my sister Mary well.".toList).dedup :=
  extract_siblings_set_semantics.1
    "I remember my brother John and my sister Mary well." "w.txt" (by decide)

/-! ### Geographical locations: vocabulary membership, sorted and
deduplicated -/

theorem ciPrefix_iff (p : List Char) : ∀ cs : List Char,
    ciPrefix p cs = true ↔ (cs.take p.length).map lowerAscii = p.map lowerAscii := by
  induction p with
  | nil => intro cs; simp [ciPrefix]
  | cons a ps ih =>
    intro cs
    cases cs with
    | nil => simp [ciPrefix]
    | cons c t =>
      simp only [ciPrefix, List.length_cons, List.take_succ_cons, List.map_cons,
        Bool.and_eq_true, beq_iff_eq, List.cons.injEq, ih t]
      constructor
      · rintro ⟨h1, h2⟩
        exact ⟨h1.symm, h2⟩
      · rintro ⟨h1, h2⟩
        exact ⟨h1.symm, h2⟩

theorem firstSomeOpt_isSome_iff {α : Type} (f : List Char → Option α) :
    ∀ cs : List Char,
    (firstSomeOpt f cs).isSome = true ↔
      ∃ i, i ≤ cs.length ∧ (f (cs.drop i)).isSome = true := by
  intro cs
  induction cs with
  | nil =>
    constructor
    · intro h
      exact ⟨0, Nat.le_refl 0, h⟩
    · rintro ⟨i, hi, h⟩
      simp only [List.length_nil, Nat.le_zero] at hi
      subst hi
      exact h
  | cons c t ih =>
    constructor
    · intro h
      unfold firstSomeOpt at h
      rcases hf : f (c :: t) with _ | r
      · rw [hf] at h
        rcases ih.mp h with ⟨i, hi, hfi⟩
        exact ⟨i + 1, by simpa using hi, hfi⟩
      · exact ⟨0, by omega, by rw [List.drop_zero, hf]; rfl⟩
    · rintro ⟨i, hi, hfi⟩
      unfold firstSomeOpt
      rcases hf : f (c :: t) with _ | r
      · rcases i with _ | j
        · rw [List.drop_zero, hf] at hfi
          simp at hfi
        · rw [List.drop_succ_cons] at hfi
          exact ih.mpr ⟨j, by simpa using hi, hfi⟩
      · rfl

/-- The bridge between the code's leftmost regex search for a literal and
the claim's substring predicate: `re.search(lit, text, re.IGNORECASE)`
succeeds exactly when the literal occurs case-insensitively in the text. -/
theorem searchLit_eq_occursCI (pat text : String) :
    searchLit pat text.toList = occursCI pat text := by
  have hf : ∀ s : List Char,
      (match pStrCI pat s with
        | [] => (none : Option Unit)
        | _ :: _ => some ()).isSome = ciPrefix pat.toList s := by
    intro s
    unfold pStrCI
    cases h : ciPrefix pat.toList s <;> simp [h]
  rw [Bool.eq_iff_iff]
  unfold searchLit occursCI
  rw [firstSomeOpt_isSome_iff, List.any_eq_true]
  constructor
  · rintro ⟨i, hi, hsome⟩
    rw [hf] at hsome
    refine ⟨i, List.mem_range.mpr (by omega), ?_⟩
    rw [beq_iff_eq]
    exact (ciPrefix_iff pat.toList (text.toList.drop i)).mp hsome
  · rintro ⟨i, hir, hbeq⟩
    rw [beq_iff_eq] at hbeq
    have hi : i ≤ text.toList.length := by
      have := List.mem_range.mp hir
      omega
    refine ⟨i, hi, ?_⟩
    rw [hf]
    exact (ciPrefix_iff pat.toList (text.toList.drop i)).mpr hbeq

theorem geo_sorted_cases (g : String → Bool) :
    (gazetteer.filter g = [] ↔ gazetteerSorted.filter g = []) ∧
    (gazetteer.filter g ≠ [] →
      String.intercalate ", " (sortStrings ((gazetteer.filter g).dedup)) =
        String.intercalate ", " (gazetteerSorted.filter g)) := by
  cases h1 : g "California" <;> cases h2 : g "Moline" <;>
    cases h3 : g "Campbells Island" <;> cases h4 : g "Chicago" <;>
    cases h5 : g "Florida" <;> cases h6 : g "Sweden" <;>
    simp [gazetteer, gazetteerSorted, h1, h2, h3, h4, h5, h6] <;> decide

/-- Claim C7: for every text the Geographical-Locations field is exactly
the sorted, deduplicated, `", "`-joined list of the gazetteer entries
occurring case-insensitively in the text (`"N/A"` when none does), and a
text mentioning Chicago and Sweden yields exactly `"Chicago, Sweden"`. -/
theorem extract_geo_sorted_membership (text fn : String) :
    lookupField (extract_fields_unlabeled text fn) "Geographical Locations" =
      some (if geoSpecList text = [] then "N/A"
            else String.intercalate ", " (geoSpecList text)) ∧
    lookupField (extract_fields_unlabeled
        "He traveled to Chicago and later to Sweden." "trip.txt")
      "Geographical Locations" = some "Chicago, Sweden" := by
  constructor
  · have hfil : gazetteerSorted.filter (fun loc => searchLit loc text.toList) =
        geoSpecList text := by
      unfold geoSpecList
      exact List.filter_congr (fun x _ => searchLit_eq_occursCI x text)
    have hgc := geo_sorted_cases (fun loc => searchLit loc text.toList)
    simp only [extract_fields_unlabeled]
    rw [lookupField_dateLoopStep_ne _ _ _ (by decide)]
    rw [lookupField_dateLoopStep_ne _ _ _ (by decide)]
    rw [lookupField_dateLoopStep_ne _ _ _ (by decide)]
    rw [lookupField_dateLoopStep_ne _ _ _ (by decide)]
    rw [lookupField_setField_ne _ _ _ _ (by decide)]
    by_cases hge : geoFound text.toList = []
    · have hnone : geoValue text.toList = none := by
        unfold geoValue
        rw [if_pos hge]
      rw [hnone, condSet_none]
      rw [lookupField_condSet_ne _ _ _ _ (by decide)]
      rw [lookupField_condSet_ne _ _ _ _ (by decide)]
      rw [lookupField_condSet_ne _ _ _ _ (by decide)]
      rw [lookupField_condSet_ne _ _ _ _ (by decide)]
      rw [lookupField_condSet_ne _ _ _ _ (by decide)]
      rw [lookupField_condSet_ne _ _ _ _ (by decide)]
      rw [lookupField_condSet_ne _ _ _ _ (by decide)]
      rw [lookupField_condSet_ne _ _ _ _ (by decide)]
      rw [lookupField_init required_fields "N/A" _ (by decide)]
      have hspec : geoSpecList text = [] := by
        rw [← hfil]
        exact hgc.1.mp hge
      rw [hspec]
      rfl
    · have hsome : geoValue text.toList =
          some (String.intercalate ", " (sortStrings ((geoFound text.toList).dedup))) := by
        unfold geoValue
        rw [if_neg hge]
      rw [hsome]
      have hspec : geoSpecList text ≠ [] := by
        rw [← hfil]
        intro hc
        exact hge (hgc.1.mpr hc)
      rw [lookupField_condSet_some _ _ _ ?keys]
      case keys =>
        rw [keys_condSet_req _ _ _ (by decide) (keys_condSet_req _ _ _ (by decide)
          (keys_condSet_req _ _ _ (by decide) (keys_condSet_req _ _ _ (by decide)
            (keys_condSet_req _ _ _ (by decide) (keys_condSet_req _ _ _ (by decide)
              (keys_condSet_req _ _ _ (by decide) (keys_condSet_req _ _ _ (by decide)
                (keys_init required_fields "N/A"))))))))]
        decide
      rw [if_neg hspec]
      have hval := hgc.2 hge
      rw [← hfil]
      exact congrArg some hval
  · decide
